import Mathlib

/-!
# Verification of authtown (src/main.rs)

A shallow embedding of the `authtown` web application.  The repository ships
`src/main.rs` (HTTP plumbing: `run`, `catcher`, `router`, `get_cookies`); the
modules `crypto`, `session`, `user` and `error` are declared there but their
sources are not part of the tree, so those components are modelled from the
specification (each such definition carries a `Modelled from the spec:` note).
Strings are Lean `String`s, bytes are `Nat`s below 256, fallible operations
return `Except` values, and external effects (database calls, the startup
sequence) are recorded as explicit event lists.
-/

deriving instance DecidableEq for Except

/-- Modelled from the spec: the error taxonomy of the missing `error.rs`
(`UsernameTaken`, `InvalidCredentials`, cookie/body parse failures, render,
environment and database failures). -/
inductive Err where
  | cookieParse
  | urlencodedParse
  | usernameTaken
  | invalidCredentials
  | renderError
  | envMissing
  | dbError
deriving DecidableEq, Repr

/-- Modelled from the spec: `SessionError` subtypes `Malformed`, `BadSignature`
and `Expired` of the missing `session.rs`. -/
inductive SessionError where
  | malformed
  | badSignature
  | expired
deriving DecidableEq, Repr

/-- Modelled from the spec: a stored credential record with its embedded salt
(`CredentialHasher` output; the concrete algorithm is left open by the spec). -/
structure HashRecord where
  salt : Nat
  digest : Nat
deriving DecidableEq, Repr

/-- Modelled from the spec: a deterministic digest parameterised by the salt,
standing in for the unspecified password-hash function. -/
def toyDigest (salt : Nat) (pwd : String) : Nat :=
  salt + (pwd.data.map Char.toNat).sum + pwd.length

/-- Modelled from the spec: `CredentialHasher.hash` with an explicit salt
(the salt is random in the real system and passed in here). -/
def hashPwd (salt : Nat) (pwd : String) : HashRecord :=
  ⟨salt, toyDigest salt pwd⟩

/-- Modelled from the spec: `CredentialHasher.verify` recomputes the digest
with the embedded salt and compares. -/
def verifyPwd (pwd : String) (r : HashRecord) : Bool :=
  toyDigest r.salt pwd == r.digest

/-- A user row: `{id, username, password_hash}` (spec section 3). -/
structure User where
  id : Nat
  username : String
  hash : HashRecord
deriving DecidableEq, Repr

/-- The payload carried by a session token: the user id. -/
structure SessionToken where
  user_id : Nat
deriving DecidableEq, Repr

/- ## Session token byte encoding

Modelled from the spec: the serialized token is
`encoded_payload ++ separator ++ tag` where the payload is the decimal
rendering of `user_id`, the separator is the byte 46 (a dot) and the tag is a
two-hex-digit MAC computed over the payload bytes with the key. -/

/-- Little-endian decimal digits of `n`, with explicit fuel so the recursion
is structural (the fuel `n` itself always suffices). -/
def natToDigitsAux : Nat → Nat → List Nat
  | 0, _ => []
  | _ + 1, 0 => []
  | fuel + 1, n + 1 => (n + 1) % 10 :: natToDigitsAux fuel ((n + 1) / 10)

/-- Decimal ASCII encoding of a natural number (big-endian digit bytes). -/
def encodeNat (n : Nat) : List Nat :=
  if n = 0 then [48] else (natToDigitsAux n n).reverse.map (fun d => d + 48)

/-- Numeric value of a big-endian list of ASCII digit bytes. -/
def decodeVal (l : List Nat) : Nat :=
  l.foldl (fun a b => a * 10 + (b - 48)) 0

/-- Is the byte an ASCII decimal digit? -/
def isDigitByte (b : Nat) : Bool :=
  decide (48 ≤ b) && decide (b ≤ 57)

/-- Decode a decimal ASCII payload; `none` if empty or not all digits. -/
def decodeNat (l : List Nat) : Option Nat :=
  if !l.isEmpty && l.all isDigitByte then some (decodeVal l) else none

/-- Render a nibble as an ASCII hex digit byte. -/
def hexDigit (d : Nat) : Nat :=
  if d < 10 then 48 + d else 87 + d

/-- Render a byte as two ASCII hex digit bytes. -/
def hex2 (v : Nat) : List Nat :=
  [hexDigit (v / 16), hexDigit (v % 16)]

/-- Modelled from the spec: the deterministic MAC `SigningKey.sign` reduced to
a keyed checksum over the payload bytes (the spec leaves the algorithm open). -/
def tagVal (key payload : List Nat) : Nat :=
  (key.sum + payload.sum) % 256

/-- The separator byte between payload and tag (a dot). -/
def sepByte : Nat := 46

/-- Modelled from the spec: `SessionToken.serialize` — payload bytes, the
separator, then the hex-rendered tag computed over the payload. -/
def serializeToken (t : SessionToken) (key : List Nat) : List Nat :=
  let p := encodeNat t.user_id
  p ++ sepByte :: hex2 (tagVal key p)

/-- Split a byte list on a separator byte (every occurrence). -/
def splitOnByte (sep : Nat) : List Nat → List (List Nat)
  | [] => [[]]
  | b :: rest =>
    match splitOnByte sep rest with
    | [] => [[]]
    | cur :: segs => if b = sep then [] :: cur :: segs else (b :: cur) :: segs

/-- Modelled from the spec: `SessionToken.parse_and_verify` — structural split
first, then constant-time tag comparison, then payload decoding (the fixed
verification order of spec section 4.4; no expiry is configured, so the
`expired` branch is never taken). -/
def parseVerify (input : List Nat) (key : List Nat) : Except SessionError SessionToken :=
  match splitOnByte sepByte input with
  | [payload, tag] =>
    if tag = hex2 (tagVal key payload) then
      match decodeNat payload with
      | some uid => .ok ⟨uid⟩
      | none => .error .malformed
    else .error .badSignature
  | _ => .error .malformed

/- ## Strings and cookies -/

/-- Render a byte list as a string (used for cookie values). -/
def bytesToStr (l : List Nat) : String :=
  String.mk (l.map (fun b => Char.ofNat b))

/-- Read a string back as its list of code points. -/
def strToBytes (s : String) : List Nat :=
  s.data.map Char.toNat

/-- Modelled from the spec: the session cookie name used by `session.rs`. -/
def cookieName : String := "session"

/-- Modelled from the spec: an authenticated session carrying the user id and
the serialized token (minted by `Session::create(user, crypto)`). -/
structure Session where
  user_id : Nat
  token : List Nat
deriving DecidableEq, Repr

/-- Modelled from the spec: `Session::create` serializes a fresh token over the
user's id under the process signing key. -/
def Session.create (u : User) (key : List Nat) : Session :=
  ⟨u.id, serializeToken ⟨u.id⟩ key⟩

/-- Look a cookie up by name in the parsed cookie map; on duplicate names the
later entry wins, as with the `HashMap` collect in `get_cookies`. -/
def lookupCookie (cookies : List (String × String)) (name : String) : Option String :=
  (cookies.reverse.find? (fun c => c.1 == name)).map (fun c => c.2)

/-- Modelled from the spec: `Session::from_cookies` looks up the session
cookie and verifies it; any `SessionError` (malformed, bad signature, expired)
discards the cookie and yields `none`, i.e. "not logged in". -/
def Session.from_cookies (cookies : List (String × String)) (key : List Nat) : Option Session :=
  match lookupCookie cookies cookieName with
  | none => none
  | some v =>
    match parseVerify (strToBytes v) key with
    | .ok t => some ⟨t.user_id, strToBytes v⟩
    | .error _ => none

/-- Modelled from the spec: `Session::cookie_login` rendered as a `Set-Cookie`
string with the attributes of spec section 6. -/
def Session.cookie_login (s : Session) : String :=
  cookieName ++ "=" ++ bytesToStr s.token ++ "; HttpOnly; Secure; SameSite=Strict; Path=/"

/-- Modelled from the spec: `Session::cookie_logout` — same name, path and
flags, empty value, already-expired lifetime. -/
def Session.cookie_logout : String :=
  cookieName ++ "=; Max-Age=0; HttpOnly; Secure; SameSite=Strict; Path=/"

/- ## Cookie-header parsing (`get_cookies`, from src/main.rs lines 198-205) -/

/-- Split a character list on the two-character separator of
`header.split("; ")`. -/
def splitSemiAux : List Char → List (List Char)
  | [] => [[]]
  | c :: rest =>
    match splitSemiAux rest with
    | [] => [[]]
    | cur :: segs =>
      if c = ';' then
        match cur with
        | ' ' :: curTail => [] :: curTail :: segs
        | _ => (c :: cur) :: segs
      else (c :: cur) :: segs

/-- Split a character list at the first equals sign; `none` when absent. -/
def splitEq : List Char → Option (List Char × List Char)
  | [] => none
  | c :: rest =>
    if c = '=' then some ([], rest)
    else
      match splitEq rest with
      | none => none
      | some (a, b) => some (c :: a, b)

/-- Strip leading and trailing spaces, as the cookie crate trims name and
value. -/
def trimChars (l : List Char) : List Char :=
  (((l.dropWhile (fun c => c = ' ')).reverse.dropWhile (fun c => c = ' ')).reverse)

/-- One `Cookie::parse` call: split at the first equals sign (no pair at all
is a parse error), trim, and reject an empty name. -/
def parseCookiePair (s : List Char) : Except Err (String × String) :=
  match splitEq s with
  | none => .error Err.cookieParse
  | some (name, value) =>
    let n := trimChars name
    if n.isEmpty then .error Err.cookieParse
    else .ok (String.mk n, String.mk (trimChars value))

/-- `get_cookies` (src/main.rs lines 198-205): a missing Cookie header yields
an empty map; otherwise the header splits on the two-byte separator and every
piece must parse, the first failure aborting the whole map. -/
def get_cookies (header : Option String) : Except Err (List (String × String)) :=
  match header with
  | none => .ok []
  | some h => (splitSemiAux h.data).mapM parseCookiePair

/- ## User store (user.rs is absent; modelled from the spec) -/

/-- The backing store as a list of user rows. -/
abbrev Store := List User

/-- Find a user row by username. -/
def lookupUser (store : Store) (name : String) : Option User :=
  store.find? (fun u => u.username == name)

/-- Modelled from the spec: `UserStore::insert` — insert-if-absent; a taken
username fails with `UsernameTaken`, otherwise the store assigns the next id. -/
def UserStore.insert (store : Store) (salt : Nat) (name pwd : String) : Except Err User :=
  match lookupUser store name with
  | some _ => .error Err.usernameTaken
  | none => .ok ⟨store.length + 1, name, hashPwd salt pwd⟩

/-- Modelled from the spec: `UserStore::get_and_verify` — lookup by username;
an absent user and a failed password verification both return the same
`InvalidCredentials` error. -/
def UserStore.get_and_verify (store : Store) (name pwd : String) : Except Err User :=
  match lookupUser store name with
  | none => .error Err.invalidCredentials
  | some u => if verifyPwd pwd u.hash then .ok u else .error Err.invalidCredentials

/- ## HTTP layer (src/main.rs: `router`, `catcher`, `run`) -/

/-- Request methods distinguished by the router. -/
inductive HMethod where
  | get
  | post
  | other
deriving DecidableEq, Repr

/-- A parsed form body for the two auth endpoints. -/
structure AuthRequest where
  username : String
  password : String
deriving DecidableEq, Repr

/-- An incoming request: method, path, raw Cookie header, and the result of
the url-encoded body parse (the external `serde_urlencoded` call). -/
structure HttpReq where
  method : HMethod
  path : String
  cookieHeader : Option String
  authBody : Except Err AuthRequest
deriving DecidableEq, Repr

/-- The observable parts of a response: status code, `Location` header,
`Set-Cookie` header and body. -/
structure HttpResp where
  status : Nat
  location : Option String
  setCookie : Option String
  body : String
deriving DecidableEq, Repr

/-- A database operation issued while handling a request. -/
inductive DbEffect where
  | insert (username : String)
  | query (username : String)
deriving DecidableEq, Repr

/-- Modelled from the spec: `Error::to_string`, the body of a 500 response. -/
def errToString : Err → String
  | .cookieParse => "could not parse cookie"
  | .urlencodedParse => "could not parse form body"
  | .usernameTaken => "username taken"
  | .invalidCredentials => "invalid credentials"
  | .renderError => "template render failed"
  | .envMissing => "environment variable missing"
  | .dbError => "database error"

/-- The route dispatch of `router` (src/main.rs lines 145-195), after cookies
and session have been resolved: the four handled routes and the 404 fallback,
with the database operations each arm performs recorded as effects. -/
def route (req : HttpReq) (session : Option Session) (store : Store) (salt : Nat)
    (key : List Nat) (render : Option Nat → Except Err String) :
    Except Err HttpResp × List DbEffect :=
  if req.method = HMethod.get ∧ req.path = "/" then
    match render (session.map Session.user_id) with
    | .ok html => (.ok ⟨200, none, none, html⟩, [])
    | .error e => (.error e, [])
  else if req.method = HMethod.post ∧ req.path = "/auth/register" then
    match req.authBody with
    | .error e => (.error e, [])
    | .ok b =>
      match UserStore.insert store salt b.username b.password with
      | .error e => (.error e, [DbEffect.insert b.username])
      | .ok user =>
        (.ok ⟨303, some "/", some (Session.cookie_login (Session.create user key)), ""⟩,
          [DbEffect.insert b.username])
  else if req.method = HMethod.post ∧ req.path = "/auth/login" then
    match req.authBody with
    | .error e => (.error e, [])
    | .ok b =>
      match UserStore.get_and_verify store b.username b.password with
      | .error e => (.error e, [DbEffect.query b.username])
      | .ok user =>
        (.ok ⟨303, some "/", some (Session.cookie_login (Session.create user key)), ""⟩,
          [DbEffect.query b.username])
  else if req.method = HMethod.post ∧ req.path = "/auth/logout" then
    (.ok ⟨303, some "/", some Session.cookie_logout, ""⟩, [])
  else
    (.ok ⟨404, none, none, ""⟩, [])

/-- `router` (src/main.rs lines 126-196): parse the Cookie header, resolve the
session, then dispatch; a cookie parse failure propagates as an error before
any route runs. -/
def router (req : HttpReq) (store : Store) (salt : Nat) (key : List Nat)
    (render : Option Nat → Except Err String) :
    Except Err HttpResp × List DbEffect :=
  match get_cookies req.cookieHeader with
  | .error e => (.error e, [])
  | .ok cookies => route req (Session.from_cookies cookies key) store salt key render

/-- `catcher` (src/main.rs lines 104-124): pass successful responses through
and convert any router error into a 500 response whose body is the error's
string rendering; `catcher` itself never fails. -/
def catcher (req : HttpReq) (store : Store) (salt : Nat) (key : List Nat)
    (render : Option Nat → Except Err String) :
    Except Err HttpResp × List DbEffect :=
  match router req store salt key render with
  | (.ok resp, effs) => (.ok resp, effs)
  | (.error e, effs) => (.ok ⟨500, none, none, errToString e⟩, effs)

/- ## Startup sequence (`run`, src/main.rs lines 75-102) -/

/-- The externally visible startup steps of `run`, in program order. -/
inductive StartupEvent where
  | dbConnect
  | teraInit
  | cryptoInit
  | serverBind
  | serve
deriving DecidableEq, Repr

/-- `run` (src/main.rs lines 75-102) with its fallible collaborators passed
in as results: read `DATABASE_URL`, connect to the database, load templates,
construct the signing key (`Crypto::from_env`), and only then bind the server
socket and serve.  Each failure aborts with the events performed so far. -/
def run (envRes : Except Err String) (dbRes : Except Err Unit) (teraRes : Except Err Unit)
    (cryptoRes : Except Err Unit) : Except Err Unit × List StartupEvent :=
  match envRes with
  | .error e => (.error e, [])
  | .ok _ =>
    match dbRes with
    | .error e => (.error e, [])
    | .ok _ =>
      match teraRes with
      | .error e => (.error e, [StartupEvent.dbConnect])
      | .ok _ =>
        match cryptoRes with
        | .error e => (.error e, [StartupEvent.dbConnect, StartupEvent.teraInit])
        | .ok _ =>
          (.ok (), [StartupEvent.dbConnect, StartupEvent.teraInit, StartupEvent.cryptoInit,
            StartupEvent.serverBind, StartupEvent.serve])

example : get_cookies none = .ok [] := by decide
example : get_cookies (some "session=abc; theme=dark") =
    .ok [("session", "abc"), ("theme", "dark")] := by decide
example : get_cookies (some "garbage") = .error Err.cookieParse := by decide
example : serializeToken ⟨5⟩ [7] = [53, 46, 51, 99] := by decide
example : parseVerify (serializeToken ⟨5⟩ [7]) [7] = .ok ⟨5⟩ := by decide
example : parseVerify (serializeToken ⟨2026⟩ [1, 2, 3]) [1, 2, 3] = .ok ⟨2026⟩ := by decide
example : parseVerify ((serializeToken ⟨5⟩ [7]).set 0 47) [7] = .error .badSignature := by decide
example : parseVerify ((serializeToken ⟨5⟩ [7]).set 1 47) [7] = .error .malformed := by decide

/- ## Lemmas: decimal encoding round-trip -/

theorem natToDigitsAux_zero (fuel : Nat) : natToDigitsAux fuel 0 = [] := by
  cases fuel <;> rfl

theorem natToDigitsAux_lt (fuel : Nat) : ∀ n, ∀ d ∈ natToDigitsAux fuel n, d < 10 := by
  induction fuel with
  | zero => intro n d hd; simp [natToDigitsAux] at hd
  | succ fuel ih =>
    intro n d hd
    cases n with
    | zero => simp [natToDigitsAux] at hd
    | succ m =>
      simp only [natToDigitsAux, List.mem_cons] at hd
      rcases hd with h | h
      · subst h; exact Nat.mod_lt _ (by omega)
      · exact ih _ d h

theorem decodeVal_append_singleton (l : List Nat) (x : Nat) :
    decodeVal (l ++ [x]) = decodeVal l * 10 + (x - 48) := by
  simp [decodeVal, List.foldl_append]

theorem natToDigitsAux_val (fuel : Nat) : ∀ n, 0 < n → n ≤ fuel →
    natToDigitsAux fuel n ≠ [] ∧
    decodeVal ((natToDigitsAux fuel n).reverse.map (fun d => d + 48)) = n := by
  induction fuel with
  | zero => intro n h1 h2; omega
  | succ fuel ih =>
    intro n h1 h2
    cases n with
    | zero => omega
    | succ m =>
      simp only [natToDigitsAux]
      refine ⟨by simp, ?_⟩
      rw [List.reverse_cons, List.map_append]
      rw [show List.map (fun d => d + 48) [(m + 1) % 10] = [(m + 1) % 10 + 48] from rfl]
      rw [decodeVal_append_singleton]
      by_cases hq : (m + 1) / 10 = 0
      · rw [hq, natToDigitsAux_zero]
        simp only [List.reverse_nil, List.map_nil]
        have : decodeVal [] = 0 := rfl
        rw [this]
        omega
      · have hlt : (m + 1) / 10 < m + 1 := Nat.div_lt_self (by omega) (by omega)
        have hqle : (m + 1) / 10 ≤ fuel := by omega
        have := (ih ((m + 1) / 10) (by omega) hqle).2
        rw [this]
        omega

theorem encodeNat_ne_nil (n : Nat) : encodeNat n ≠ [] := by
  unfold encodeNat
  by_cases h : n = 0
  · simp [h]
  · rw [if_neg h]
    have := (natToDigitsAux_val n n (by omega) (Nat.le_refl n)).1
    simp only [ne_eq, List.map_eq_nil_iff, List.reverse_eq_nil_iff]
    exact this

theorem encodeNat_mem (n b : Nat) (hb : b ∈ encodeNat n) : 48 ≤ b ∧ b ≤ 57 := by
  unfold encodeNat at hb
  by_cases h : n = 0
  · rw [if_pos h] at hb
    simp at hb
    omega
  · rw [if_neg h] at hb
    simp only [List.mem_map, List.mem_reverse] at hb
    obtain ⟨d, hd, rfl⟩ := hb
    have := natToDigitsAux_lt n n d hd
    omega

theorem decode_encode (n : Nat) : decodeNat (encodeNat n) = some n := by
  have hne := encodeNat_ne_nil n
  have hempty : (encodeNat n).isEmpty = false := by
    cases hE : encodeNat n with
    | nil => exact absurd hE hne
    | cons a l => rfl
  have hall : (encodeNat n).all isDigitByte = true := by
    rw [List.all_eq_true]
    intro b hb
    have := encodeNat_mem n b hb
    simp only [isDigitByte, Bool.and_eq_true, decide_eq_true_eq]
    omega
  have hval : decodeVal (encodeNat n) = n := by
    unfold encodeNat
    by_cases h : n = 0
    · rw [if_pos h, h]; rfl
    · rw [if_neg h]
      exact (natToDigitsAux_val n n (by omega) (Nat.le_refl n)).2
  unfold decodeNat
  rw [hempty, hall, hval]
  rfl

/- ## Lemmas: splitting on the separator byte -/

theorem splitOnByte_ne_nil (sep : Nat) (l : List Nat) : splitOnByte sep l ≠ [] := by
  cases l with
  | nil => simp [splitOnByte]
  | cons b rest =>
    rw [splitOnByte]
    cases splitOnByte sep rest with
    | nil => simp
    | cons cur segs => by_cases h : b = sep <;> simp [h]

theorem splitOnByte_no_sep (sep : Nat) (l : List Nat) (h : sep ∉ l) :
    splitOnByte sep l = [l] := by
  induction l with
  | nil => rfl
  | cons b rest ih =>
    have hb : b ≠ sep := fun hc => h (hc ▸ List.mem_cons_self b rest)
    have hr : sep ∉ rest := fun hc => h (List.mem_cons_of_mem _ hc)
    rw [splitOnByte, ih hr]
    simp [hb]

theorem splitOnByte_append (sep : Nat) (a b : List Nat) (ha : sep ∉ a) :
    splitOnByte sep (a ++ sep :: b) = a :: splitOnByte sep b := by
  induction a with
  | nil =>
    simp only [List.nil_append]
    rw [splitOnByte]
    rcases hS : splitOnByte sep b with _ | ⟨cur, segs⟩
    · exact absurd hS (splitOnByte_ne_nil sep b)
    · simp
  | cons x a ih =>
    have hx : x ≠ sep := fun hc => ha (hc ▸ List.mem_cons_self x a)
    have ha2 : sep ∉ a := fun hc => ha (List.mem_cons_of_mem _ hc)
    simp only [List.cons_append]
    rw [splitOnByte, ih ha2]
    simp [hx]

theorem splitOnByte_length (sep : Nat) (l : List Nat) :
    (splitOnByte sep l).length = l.count sep + 1 := by
  induction l with
  | nil => rfl
  | cons b rest ih =>
    rw [splitOnByte]
    rcases hS : splitOnByte sep rest with _ | ⟨cur, segs⟩
    · exact absurd hS (splitOnByte_ne_nil sep rest)
    · rw [hS] at ih
      simp only [List.length_cons] at ih
      by_cases h : b = sep
      · simp [h, List.count_cons]
        omega
      · simp [h, List.count_cons]
        omega

/- ## Lemmas: single-byte updates -/

theorem sum_set (l : List Nat) (i v : Nat) (h : i < l.length) :
    (l.set i v).sum + l[i] = l.sum + v := by
  induction l generalizing i with
  | nil => simp at h
  | cons a t ih =>
    cases i with
    | zero => simp [List.set_cons_zero]; omega
    | succ j =>
      have hj : j < t.length := by simpa using h
      simp only [List.set_cons_succ, List.sum_cons, List.getElem_cons_succ]
      have := ih j hj
      omega

theorem mem_set_self (l : List Nat) (i v : Nat) (h : i < l.length) : v ∈ l.set i v := by
  have h2 : i < (l.set i v).length := by simpa using h
  have hget : (l.set i v)[i] = v := List.getElem_set_self h2
  have hmem := List.getElem_mem h2
  rwa [hget] at hmem

theorem set_ne_self (l : List Nat) (i v : Nat) (h : i < l.length) (hne : v ≠ l[i]) :
    l.set i v ≠ l := by
  induction l generalizing i with
  | nil => simp at h
  | cons a t ih =>
    cases i with
    | zero =>
      simp only [List.set_cons_zero]
      intro hc
      exact hne (by simpa using congrArg List.head? hc)
    | succ j =>
      have hj : j < t.length := by simpa using h
      simp only [List.set_cons_succ]
      intro hc
      have hc2 : t.set j v = t := by simpa using congrArg List.tail hc
      exact ih j hj (by simpa using hne) hc2

/- ## Lemmas: hex rendering of the tag -/

theorem hexDigit_inj : ∀ a, a < 16 → ∀ b, b < 16 → hexDigit a = hexDigit b → a = b := by decide

theorem hexDigit_ne_sep : ∀ d, d < 16 → hexDigit d ≠ 46 := by decide

theorem hexDigit_lt : ∀ d, d < 16 → hexDigit d < 256 := by decide

theorem hex2_inj (x y : Nat) (hx : x < 256) (hy : y < 256) (h : hex2 x = hex2 y) : x = y := by
  simp only [hex2, List.cons.injEq, and_true] at h
  obtain ⟨h1, h2⟩ := h
  have e1 := hexDigit_inj (x / 16) (by omega) (y / 16) (by omega) h1
  have e2 := hexDigit_inj (x % 16) (by omega) (y % 16) (by omega) h2
  omega

theorem sep_not_mem_hex2 (v : Nat) (hv : v < 256) : sepByte ∉ hex2 v := by
  intro hc
  simp only [hex2, List.mem_cons, List.not_mem_nil, or_false, List.mem_singleton] at hc
  have h46 : sepByte = 46 := rfl
  rcases hc with hc | hc
  · exact hexDigit_ne_sep (v / 16) (by omega) (h46 ▸ hc.symm)
  · exact hexDigit_ne_sep (v % 16) (by omega) (h46 ▸ hc.symm)

theorem hex2_mem_lt (v b : Nat) (hv : v < 256) (hb : b ∈ hex2 v) : b < 256 := by
  simp only [hex2, List.mem_cons, List.not_mem_nil, or_false, List.mem_singleton] at hb
  rcases hb with hb | hb
  · exact hb ▸ hexDigit_lt (v / 16) (by omega)
  · exact hb ▸ hexDigit_lt (v % 16) (by omega)

theorem tagVal_lt (key p : List Nat) : tagVal key p < 256 :=
  Nat.mod_lt _ (by omega)

theorem tagVal_set_ne (key p : List Nat) (i v : Nat) (h : i < p.length)
    (hv : v < 256) (hpi : p[i] < 256) (hne : v ≠ p[i]) :
    tagVal key (p.set i v) ≠ tagVal key p := by
  have hsum := sum_set p i v h
  simp only [tagVal]
  omega

/- ## Lemmas: serialization structure and parse outcomes -/

theorem sep_not_mem_encode (n : Nat) : sepByte ∉ encodeNat n := by
  intro hc
  have h := encodeNat_mem n sepByte hc
  have h46 : sepByte = 46 := rfl
  omega

theorem encode_mem_lt (n b : Nat) (hb : b ∈ encodeNat n) : b < 256 := by
  have := encodeNat_mem n b hb
  omega

theorem serializeToken_eq (uid : Nat) (key : List Nat) :
    serializeToken ⟨uid⟩ key =
      encodeNat uid ++ sepByte :: hex2 (tagVal key (encodeNat uid)) := rfl

theorem parseVerify_malformed (l key : List Nat)
    (h : (splitOnByte sepByte l).length ≠ 2) :
    parseVerify l key = .error SessionError.malformed := by
  unfold parseVerify
  rcases hS : splitOnByte sepByte l with _ | ⟨a, _ | ⟨b, _ | ⟨c, rest⟩⟩⟩
  · rfl
  · rfl
  · rw [hS] at h
    simp at h
  · rfl

theorem parseVerify_badsig (l key p t : List Nat)
    (hS : splitOnByte sepByte l = [p, t]) (hne : t ≠ hex2 (tagVal key p)) :
    parseVerify l key = .error SessionError.badSignature := by
  unfold parseVerify
  rw [hS]
  simp [hne]

theorem parseVerify_serialize (n : Nat) (key : List Nat) :
    parseVerify (serializeToken ⟨n⟩ key) key = .ok ⟨n⟩ := by
  have hp := sep_not_mem_encode n
  have ht : sepByte ∉ hex2 (tagVal key (encodeNat n)) :=
    sep_not_mem_hex2 _ (tagVal_lt key (encodeNat n))
  have hsplit : splitOnByte sepByte
      (encodeNat n ++ sepByte :: hex2 (tagVal key (encodeNat n)))
      = [encodeNat n, hex2 (tagVal key (encodeNat n))] := by
    rw [splitOnByte_append _ _ _ hp, splitOnByte_no_sep _ _ ht]
  rw [serializeToken_eq]
  unfold parseVerify
  rw [hsplit]
  simp [decode_encode]

/- ## Lemmas: byte/string round-trip -/

theorem toNat_ofNat_lt (b : Nat) (h : b < 256) : (Char.ofNat b).toNat = b := by
  have hv : b.isValidChar := Or.inl (by omega)
  unfold Char.ofNat
  rw [dif_pos hv]
  rfl

theorem strToBytes_bytesToStr (l : List Nat) (h : ∀ b ∈ l, b < 256) :
    strToBytes (bytesToStr l) = l := by
  simp only [strToBytes, bytesToStr, List.map_map]
  rw [List.map_congr_left (g := id)]
  · simp
  · intro b hb
    exact toNat_ofNat_lt b (h b hb)

theorem serialize_mem_lt (t : SessionToken) (key : List Nat) :
    ∀ b ∈ serializeToken t key, b < 256 := by
  rcases t with ⟨uid⟩
  intro b hb
  rw [serializeToken_eq] at hb
  rcases List.mem_append.mp hb with h | h
  · exact encode_mem_lt uid b h
  · rcases List.mem_cons.mp h with h | h
    · rw [h]; decide
    · exact hex2_mem_lt _ _ (tagVal_lt _ _) h

/- ## The tamper-detection argument -/

/-- Any single-byte substitution in a well-formed `payload ++ sep :: tag` token
whose tag matches the payload is rejected as a bad signature or as malformed. -/
theorem tamper_general (p t key : List Nat)
    (hp : sepByte ∉ p) (ht46 : sepByte ∉ t)
    (hplt : ∀ b ∈ p, b < 256) (htag : t = hex2 (tagVal key p))
    (i v : Nat) (hi : i < (p ++ sepByte :: t).length) (hv : v < 256)
    (hne : v ≠ (p ++ sepByte :: t)[i]) :
    parseVerify ((p ++ sepByte :: t).set i v) key = .error SessionError.badSignature ∨
    parseVerify ((p ++ sepByte :: t).set i v) key = .error SessionError.malformed := by
  rcases Nat.lt_trichotomy i p.length with hcase | hcase | hcase
  · -- a payload byte is modified
    have hset : (p ++ sepByte :: t).set i v = p.set i v ++ sepByte :: t :=
      List.set_append_left _ _ hcase
    have hgi : (p ++ sepByte :: t)[i] = p[i] := List.getElem_append_left hcase
    rw [hset]
    by_cases hv46 : v = sepByte
    · right
      apply parseVerify_malformed
      rw [splitOnByte_length, List.count_append, List.count_cons_self]
      have hmem : sepByte ∈ p.set i v := hv46 ▸ mem_set_self p i v hcase
      have h1 : 0 < (p.set i v).count sepByte := List.count_pos_iff.mpr hmem
      omega
    · left
      have hp2 : sepByte ∉ p.set i v := by
        intro hmem
        rcases List.mem_or_eq_of_mem_set hmem with h | h
        · exact hp h
        · exact hv46 h.symm
      have hsplit : splitOnByte sepByte (p.set i v ++ sepByte :: t) = [p.set i v, t] := by
        rw [splitOnByte_append _ _ _ hp2, splitOnByte_no_sep _ _ ht46]
      apply parseVerify_badsig _ _ _ _ hsplit
      rw [htag]
      intro hc
      have heq : tagVal key p = tagVal key (p.set i v) :=
        hex2_inj _ _ (tagVal_lt _ _) (tagVal_lt _ _) hc
      exact tagVal_set_ne key p i v hcase hv (hplt _ (List.getElem_mem hcase))
        (by rw [← hgi]; exact hne) heq.symm
  · -- the separator byte is modified
    have hgi : (p ++ sepByte :: t)[i] = sepByte := by
      rw [List.getElem_append_right (Nat.le_of_eq hcase.symm)]
      simp [hcase]
    have hvne : v ≠ sepByte := fun hc => hne (hc.trans hgi.symm)
    have hset : (p ++ sepByte :: t).set i v = p ++ v :: t := by
      rw [List.set_append_right _ _ (Nat.le_of_eq hcase.symm)]
      rw [show i - p.length = 0 by omega]
      rfl
    rw [hset]
    right
    apply parseVerify_malformed
    have hnomem : sepByte ∉ p ++ v :: t := by
      intro hmem
      rcases List.mem_append.mp hmem with h | h
      · exact hp h
      · rcases List.mem_cons.mp h with h | h
        · exact hvne h.symm
        · exact ht46 h
    rw [splitOnByte_no_sep _ _ hnomem]
    simp
  · -- a tag byte is modified
    obtain ⟨j, rfl⟩ : ∃ j, i = p.length + 1 + j := ⟨i - (p.length + 1), by omega⟩
    have hj : j < t.length := by
      rw [List.length_append, List.length_cons] at hi
      omega
    have hgi : (p ++ sepByte :: t)[p.length + 1 + j] = t[j] := by
      rw [List.getElem_append_right (by omega)]
      simp only [show p.length + 1 + j - p.length = j + 1 from by omega]
      simp
    have hset : (p ++ sepByte :: t).set (p.length + 1 + j) v = p ++ sepByte :: t.set j v := by
      rw [List.set_append_right _ _ (by omega)]
      rw [show p.length + 1 + j - p.length = j + 1 from by omega]
      rfl
    rw [hset]
    by_cases hv46 : v = sepByte
    · right
      apply parseVerify_malformed
      rw [splitOnByte_length, List.count_append, List.count_cons_self]
      have hmem : sepByte ∈ t.set j v := hv46 ▸ mem_set_self t j v hj
      have h1 : 0 < (t.set j v).count sepByte := List.count_pos_iff.mpr hmem
      omega
    · left
      have ht2 : sepByte ∉ t.set j v := by
        intro hmem
        rcases List.mem_or_eq_of_mem_set hmem with h | h
        · exact ht46 h
        · exact hv46 h.symm
      have hsplit : splitOnByte sepByte (p ++ sepByte :: t.set j v) = [p, t.set j v] := by
        rw [splitOnByte_append _ _ _ hp, splitOnByte_no_sep _ _ ht2]
      apply parseVerify_badsig _ _ _ _ hsplit
      rw [← htag]
      exact set_ne_self t j v hj (by rw [← hgi]; exact hne)

/- ## Claim theorems -/

/-- Claim C2: for every user and signing key, serializing the session created
by `Session.create` into the cookie map and reading it back through
`Session.from_cookies` under the same key succeeds and yields a session whose
`user_id` equals the user's id. -/
theorem session_roundtrip (u : User) (key : List Nat) :
    ∃ s, Session.from_cookies [(cookieName, bytesToStr (Session.create u key).token)] key = some s
      ∧ s.user_id = u.id := by
  have htok : (Session.create u key).token = serializeToken ⟨u.id⟩ key := rfl
  have hsb : strToBytes (bytesToStr (serializeToken ⟨u.id⟩ key)) = serializeToken ⟨u.id⟩ key :=
    strToBytes_bytesToStr _ (serialize_mem_lt _ _)
  refine ⟨⟨u.id, serializeToken ⟨u.id⟩ key⟩, ?_, rfl⟩
  unfold Session.from_cookies
  have hlook : lookupCookie [(cookieName, bytesToStr (Session.create u key).token)] cookieName
      = some (bytesToStr (Session.create u key).token) := by
    simp [lookupCookie, List.find?]
  rw [hlook, htok]
  simp only [hsb, parseVerify_serialize]

/-- Claim C3: every single-byte modification of a serialized session token is
rejected by `parseVerify` with `badSignature` or `malformed`; no tampered
token is accepted. -/
theorem tamper_rejected (uid : Nat) (key : List Nat) (i v : Nat)
    (hi : i < (serializeToken ⟨uid⟩ key).length) (hv : v < 256)
    (hne : v ≠ (serializeToken ⟨uid⟩ key)[i]) :
    parseVerify ((serializeToken ⟨uid⟩ key).set i v) key = .error SessionError.badSignature ∨
    parseVerify ((serializeToken ⟨uid⟩ key).set i v) key = .error SessionError.malformed :=
  tamper_general (encodeNat uid) (hex2 (tagVal key (encodeNat uid))) key
    (sep_not_mem_encode uid) (sep_not_mem_hex2 _ (tagVal_lt _ _))
    (fun b hb => encode_mem_lt uid b hb) rfl i v hi hv hne

/-- Witness for C3 at a concrete token, key, position and replacement byte. -/
theorem tamper_rejected_witness :
    parseVerify ((serializeToken ⟨5⟩ [7]).set 0 47) [7] = .error SessionError.badSignature ∨
    parseVerify ((serializeToken ⟨5⟩ [7]).set 0 47) [7] = .error SessionError.malformed :=
  tamper_rejected 5 [7] 0 47 (by decide) (by decide) (by decide)

/-- Claim C4: `UserStore.get_and_verify` returns the identical
`invalidCredentials` error whether the username is absent from the store or
the password fails verification against the stored record. -/
theorem invalid_credentials_indistinguishable (store : Store) (name pwd : String) :
    (lookupUser store name = none →
      UserStore.get_and_verify store name pwd = .error Err.invalidCredentials)
    ∧ (∀ u, lookupUser store name = some u → verifyPwd pwd u.hash = false →
      UserStore.get_and_verify store name pwd = .error Err.invalidCredentials) := by
  constructor
  · intro h
    unfold UserStore.get_and_verify
    rw [h]
  · intro u h hv
    unfold UserStore.get_and_verify
    rw [h]
    simp [hv]

/-- Witness for C4: a missing user and a wrong password both produce the
`invalidCredentials` error on a concrete store. -/
theorem invalid_credentials_indistinguishable_witness :
    UserStore.get_and_verify [⟨1, "alice", hashPwd 3 "pw"⟩] "bob" "x"
      = .error Err.invalidCredentials
    ∧ UserStore.get_and_verify [⟨1, "alice", hashPwd 3 "pw"⟩] "alice" "wrong"
      = .error Err.invalidCredentials :=
  ⟨(invalid_credentials_indistinguishable [⟨1, "alice", hashPwd 3 "pw"⟩] "bob" "x").1
      (by decide),
   (invalid_credentials_indistinguishable [⟨1, "alice", hashPwd 3 "pw"⟩] "alice" "wrong").2
      ⟨1, "alice", hashPwd 3 "pw"⟩ (by decide) (by decide)⟩

/-- Claim C5: if constructing the signing key fails, `run` aborts with an
error, never binds the server socket and never serves; moreover the socket is
bound only in executions whose key construction succeeded. -/
theorem crypto_failure_aborts_startup (envRes : Except Err String)
    (dbRes teraRes cryptoRes : Except Err Unit) (e : Err)
    (hc : cryptoRes = .error e) :
    (run envRes dbRes teraRes cryptoRes).1.isOk = false
    ∧ StartupEvent.serverBind ∉ (run envRes dbRes teraRes cryptoRes).2
    ∧ StartupEvent.serve ∉ (run envRes dbRes teraRes cryptoRes).2
    ∧ ∀ cryptoRes2 : Except Err Unit,
        StartupEvent.serverBind ∈ (run envRes dbRes teraRes cryptoRes2).2 →
        cryptoRes2.isOk = true := by
  subst hc
  refine ⟨?_, ?_, ?_, ?_⟩
  · rcases envRes with e1 | v1
    · rfl
    · rcases dbRes with e2 | v2
      · rfl
      · rcases teraRes with e3 | v3 <;> rfl
  · rcases envRes with e1 | v1
    · simp [run]
    · rcases dbRes with e2 | v2
      · simp [run]
      · rcases teraRes with e3 | v3 <;> simp [run]
  · rcases envRes with e1 | v1
    · simp [run]
    · rcases dbRes with e2 | v2
      · simp [run]
      · rcases teraRes with e3 | v3 <;> simp [run]
  · intro c2 hmem
    rcases envRes with e1 | v1
    · simp [run] at hmem
    · rcases dbRes with e2 | v2
      · simp [run] at hmem
      · rcases teraRes with e3 | v3
        · simp [run] at hmem
        · rcases c2 with e4 | v4
          · simp [run] at hmem
          · rfl

/-- Witness for C5 at a concrete startup state where only the key fails. -/
theorem crypto_failure_aborts_startup_witness :
    (run (.ok "postgres") (.ok ()) (.ok ()) (.error Err.envMissing)).1.isOk = false
    ∧ StartupEvent.serverBind ∉ (run (.ok "postgres") (.ok ()) (.ok ()) (.error Err.envMissing)).2
    ∧ StartupEvent.serve ∉ (run (.ok "postgres") (.ok ()) (.ok ()) (.error Err.envMissing)).2 :=
  ⟨(crypto_failure_aborts_startup (.ok "postgres") (.ok ()) (.ok ()) (.error Err.envMissing)
      Err.envMissing rfl).1,
   (crypto_failure_aborts_startup (.ok "postgres") (.ok ()) (.ok ()) (.error Err.envMissing)
      Err.envMissing rfl).2.1,
   (crypto_failure_aborts_startup (.ok "postgres") (.ok ()) (.ok ()) (.error Err.envMissing)
      Err.envMissing rfl).2.2.1⟩


/- ## Router reduction helpers -/

/-- When the Cookie header parses, `router` is the route dispatch on the
resolved session. -/
theorem router_eq_route (req : HttpReq) (store : Store) (salt : Nat) (key : List Nat)
    (render : Option Nat → Except Err String) (cookies : List (String × String))
    (hck : get_cookies req.cookieHeader = .ok cookies) :
    router req store salt key render =
      route req (Session.from_cookies cookies key) store salt key render := by
  unfold router
  rw [hck]

/-- Route reduction for POST /auth/register with a parsed body. -/
theorem route_register (req : HttpReq) (session : Option Session) (store : Store)
    (salt : Nat) (key : List Nat) (render : Option Nat → Except Err String)
    (body : AuthRequest)
    (hm : req.method = HMethod.post) (hp : req.path = "/auth/register")
    (hb : req.authBody = .ok body) :
    route req session store salt key render =
      match UserStore.insert store salt body.username body.password with
      | .error e => (.error e, [DbEffect.insert body.username])
      | .ok user =>
        (.ok ⟨303, some "/", some (Session.cookie_login (Session.create user key)), ""⟩,
          [DbEffect.insert body.username]) := by
  have h1 : ¬(req.method = HMethod.get ∧ req.path = "/") := by rw [hm, hp]; decide
  unfold route
  rw [if_neg h1, if_pos ⟨hm, hp⟩, hb]

/-- Route reduction for POST /auth/login with a parsed body. -/
theorem route_login (req : HttpReq) (session : Option Session) (store : Store)
    (salt : Nat) (key : List Nat) (render : Option Nat → Except Err String)
    (body : AuthRequest)
    (hm : req.method = HMethod.post) (hp : req.path = "/auth/login")
    (hb : req.authBody = .ok body) :
    route req session store salt key render =
      match UserStore.get_and_verify store body.username body.password with
      | .error e => (.error e, [DbEffect.query body.username])
      | .ok user =>
        (.ok ⟨303, some "/", some (Session.cookie_login (Session.create user key)), ""⟩,
          [DbEffect.query body.username]) := by
  have h1 : ¬(req.method = HMethod.get ∧ req.path = "/") := by rw [hm, hp]; decide
  have h2 : ¬(req.method = HMethod.post ∧ req.path = "/auth/register") := by
    intro hc; rw [hp] at hc; exact absurd hc.2 (by decide)
  unfold route
  rw [if_neg h1, if_neg h2, if_pos ⟨hm, hp⟩, hb]

/-- Route reduction for POST /auth/logout. -/
theorem route_logout (req : HttpReq) (session : Option Session) (store : Store)
    (salt : Nat) (key : List Nat) (render : Option Nat → Except Err String)
    (hm : req.method = HMethod.post) (hp : req.path = "/auth/logout") :
    route req session store salt key render =
      (.ok ⟨303, some "/", some Session.cookie_logout, ""⟩, []) := by
  have h1 : ¬(req.method = HMethod.get ∧ req.path = "/") := by rw [hm, hp]; decide
  have h2 : ¬(req.method = HMethod.post ∧ req.path = "/auth/register") := by
    intro hc; rw [hp] at hc; exact absurd hc.2 (by decide)
  have h3 : ¬(req.method = HMethod.post ∧ req.path = "/auth/login") := by
    intro hc; rw [hp] at hc; exact absurd hc.2 (by decide)
  unfold route
  rw [if_neg h1, if_neg h2, if_neg h3, if_pos ⟨hm, hp⟩]

/-- Route reduction for the 404 fallback arm. -/
theorem route_fallback (req : HttpReq) (session : Option Session) (store : Store)
    (salt : Nat) (key : List Nat) (render : Option Nat → Except Err String)
    (h1 : ¬(req.method = HMethod.get ∧ req.path = "/"))
    (h2 : ¬(req.method = HMethod.post ∧ req.path = "/auth/register"))
    (h3 : ¬(req.method = HMethod.post ∧ req.path = "/auth/login"))
    (h4 : ¬(req.method = HMethod.post ∧ req.path = "/auth/logout")) :
    route req session store salt key render = (.ok ⟨404, none, none, ""⟩, []) := by
  unfold route
  rw [if_neg h1, if_neg h2, if_neg h3, if_neg h4]

/-- Claim C6: every successful POST to /auth/register or /auth/login (cookies
parsed, body parsed, store operation succeeded) yields status 303, location
"/", and a Set-Cookie equal to the login cookie of the session minted over the
user returned by the store. -/
theorem auth_success_response (req : HttpReq) (store : Store) (salt : Nat) (key : List Nat)
    (render : Option Nat → Except Err String) (cookies : List (String × String))
    (body : AuthRequest) (user : User)
    (hck : get_cookies req.cookieHeader = .ok cookies)
    (hb : req.authBody = .ok body) (hm : req.method = HMethod.post) :
    (req.path = "/auth/register" →
      UserStore.insert store salt body.username body.password = .ok user →
      router req store salt key render =
        (.ok ⟨303, some "/", some (Session.cookie_login (Session.create user key)), ""⟩,
          [DbEffect.insert body.username]))
    ∧ (req.path = "/auth/login" →
      UserStore.get_and_verify store body.username body.password = .ok user →
      router req store salt key render =
        (.ok ⟨303, some "/", some (Session.cookie_login (Session.create user key)), ""⟩,
          [DbEffect.query body.username])) := by
  constructor
  · intro hp hins
    rw [router_eq_route _ _ _ _ _ _ hck,
      route_register _ _ _ _ _ _ _ hm hp hb, hins]
  · intro hp hver
    rw [router_eq_route _ _ _ _ _ _ hck,
      route_login _ _ _ _ _ _ _ hm hp hb, hver]

/-- Witness for C6: concrete register and login requests against a concrete
store produce the 303 redirect carrying the minted session cookie. -/
theorem auth_success_response_witness :
    router ⟨HMethod.post, "/auth/register", none, .ok ⟨"alice", "pw"⟩⟩ [] 3 [7]
        (fun _ => Except.ok "") =
      (.ok ⟨303, some "/",
        some (Session.cookie_login (Session.create ⟨1, "alice", hashPwd 3 "pw"⟩ [7])), ""⟩,
        [DbEffect.insert "alice"])
    ∧ router ⟨HMethod.post, "/auth/login", none, .ok ⟨"alice", "pw"⟩⟩
        [⟨1, "alice", hashPwd 3 "pw"⟩] 3 [7] (fun _ => Except.ok "") =
      (.ok ⟨303, some "/",
        some (Session.cookie_login (Session.create ⟨1, "alice", hashPwd 3 "pw"⟩ [7])), ""⟩,
        [DbEffect.query "alice"]) :=
  ⟨(auth_success_response ⟨HMethod.post, "/auth/register", none, .ok ⟨"alice", "pw"⟩⟩ [] 3 [7]
      (fun _ => Except.ok "") [] ⟨"alice", "pw"⟩ ⟨1, "alice", hashPwd 3 "pw"⟩
      (by decide) rfl rfl).1 rfl (by decide),
   (auth_success_response ⟨HMethod.post, "/auth/login", none, .ok ⟨"alice", "pw"⟩⟩
      [⟨1, "alice", hashPwd 3 "pw"⟩] 3 [7]
      (fun _ => Except.ok "") [] ⟨"alice", "pw"⟩ ⟨1, "alice", hashPwd 3 "pw"⟩
      (by decide) rfl rfl).2 rfl (by decide)⟩

/-- Counterexample to C7 as stated: a POST to /auth/logout whose Cookie header
fails cookie parsing is answered with a 500 response, not the 303 logout
redirect. -/
theorem logout_bad_cookie_counterexample :
    catcher ⟨HMethod.post, "/auth/logout", some "garbage", .error Err.urlencodedParse⟩
        [] 0 [] (fun _ => Except.ok "") =
      (.ok ⟨500, none, none, errToString Err.cookieParse⟩, [])
    ∧ (⟨500, none, none, errToString Err.cookieParse⟩ : HttpResp).status ≠ 303 := by
  constructor
  · decide
  · decide

/-- Claim C7 (amended): every POST to /auth/logout whose Cookie header is
absent or parses as cookies — whatever session it carries — receives the 303
redirect to "/" with the logout cookie, and performs no database operation. -/
theorem logout_response_no_db (req : HttpReq) (store : Store) (salt : Nat) (key : List Nat)
    (render : Option Nat → Except Err String) (cookies : List (String × String))
    (hck : get_cookies req.cookieHeader = .ok cookies)
    (hm : req.method = HMethod.post) (hp : req.path = "/auth/logout") :
    router req store salt key render =
      (.ok ⟨303, some "/", some Session.cookie_logout, ""⟩, []) := by
  rw [router_eq_route _ _ _ _ _ _ hck, route_logout _ _ _ _ _ _ hm hp]

/-- Witness for C7 at a concrete logout request carrying an invalid (but
parseable) session cookie. -/
theorem logout_response_no_db_witness :
    router ⟨HMethod.post, "/auth/logout", some "session=zz", .error Err.urlencodedParse⟩
        [] 0 [7] (fun _ => Except.ok "") =
      (.ok ⟨303, some "/", some Session.cookie_logout, ""⟩, []) :=
  logout_response_no_db
    ⟨HMethod.post, "/auth/logout", some "session=zz", .error Err.urlencodedParse⟩
    [] 0 [7] (fun _ => Except.ok "") [("session", "zz")] (by decide) rfl rfl

/-- Claim C8: `catcher` always returns an Ok response; when `router` fails,
the response is a 500 whose body is the error's string rendering. -/
theorem catcher_never_errors (req : HttpReq) (store : Store) (salt : Nat) (key : List Nat)
    (render : Option Nat → Except Err String) :
    (∃ resp effs, catcher req store salt key render = (.ok resp, effs))
    ∧ ∀ e effs, router req store salt key render = (.error e, effs) →
        catcher req store salt key render = (.ok ⟨500, none, none, errToString e⟩, effs) := by
  constructor
  · rcases hR : router req store salt key render with ⟨res, effs⟩
    rcases res with e | resp
    · exact ⟨⟨500, none, none, errToString e⟩, effs, by unfold catcher; rw [hR]⟩
    · exact ⟨resp, effs, by unfold catcher; rw [hR]⟩
  · intro e effs hR
    unfold catcher
    rw [hR]

/-- Witness for C8 at a concrete request whose cookie header fails parsing. -/
theorem catcher_never_errors_witness :
    catcher ⟨HMethod.get, "/", some "oops;;", .error Err.urlencodedParse⟩
        [] 0 [] (fun _ => Except.ok "") =
      (.ok ⟨500, none, none, errToString Err.cookieParse⟩, []) :=
  (catcher_never_errors ⟨HMethod.get, "/", some "oops;;", .error Err.urlencodedParse⟩
    [] 0 [] (fun _ => Except.ok "")).2 Err.cookieParse [] (by decide)

/-- Counterexample to C1 as stated: a request whose Cookie header is present
but fails cookie parsing is answered with a 500 server-error response, not
handled as unauthenticated. -/
theorem bad_cookie_500_counterexample :
    (router ⟨HMethod.get, "/", some "garbage", .error Err.urlencodedParse⟩
        [] 0 [] (fun _ => Except.ok "")).1.isOk = false
    ∧ catcher ⟨HMethod.get, "/", some "garbage", .error Err.urlencodedParse⟩
        [] 0 [] (fun _ => Except.ok "") =
      (.ok ⟨500, none, none, errToString Err.cookieParse⟩, []) := by
  constructor
  · decide
  · decide

/-- Claim C1 (amended): when the Cookie header parses, a session cookie that
fails verification is discarded and the request is routed unauthenticated
(session `none`); but when the Cookie header itself fails cookie parsing, the
error propagates out of `router` and `catcher` answers with a 500 response. -/
theorem cookie_failure_handling (req : HttpReq) (store : Store) (salt : Nat) (key : List Nat)
    (render : Option Nat → Except Err String) :
    (∀ cookies, get_cookies req.cookieHeader = .ok cookies →
      ∀ v, lookupCookie cookies cookieName = some v →
        (parseVerify (strToBytes v) key).isOk = false →
        router req store salt key render = route req none store salt key render)
    ∧ (∀ e, get_cookies req.cookieHeader = .error e →
        catcher req store salt key render = (.ok ⟨500, none, none, errToString e⟩, [])) := by
  constructor
  · intro cookies hck v hv hfail
    rw [router_eq_route _ _ _ _ _ _ hck]
    have hnone : Session.from_cookies cookies key = none := by
      unfold Session.from_cookies
      rw [hv]
      rcases hP : parseVerify (strToBytes v) key with e | t
      · simp only [hP]
      · rw [hP] at hfail
        exact Bool.noConfusion hfail
    rw [hnone]
  · intro e he
    unfold catcher router
    rw [he]

/-- Witness for C1 at concrete requests: an unverifiable session cookie routes
unauthenticated, and an unparseable Cookie header produces the 500. -/
theorem cookie_failure_handling_witness :
    router ⟨HMethod.get, "/x", some "session=zz", .error Err.urlencodedParse⟩
        [] 0 [7] (fun _ => Except.ok "") =
      route ⟨HMethod.get, "/x", some "session=zz", .error Err.urlencodedParse⟩
        none [] 0 [7] (fun _ => Except.ok "")
    ∧ catcher ⟨HMethod.get, "/x", some "no pair", .error Err.urlencodedParse⟩
        [] 0 [7] (fun _ => Except.ok "") =
      (.ok ⟨500, none, none, errToString Err.cookieParse⟩, []) :=
  ⟨(cookie_failure_handling ⟨HMethod.get, "/x", some "session=zz", .error Err.urlencodedParse⟩
      [] 0 [7] (fun _ => Except.ok "")).1 [("session", "zz")] (by decide) "zz" (by decide)
      (by decide),
   (cookie_failure_handling ⟨HMethod.get, "/x", some "no pair", .error Err.urlencodedParse⟩
      [] 0 [7] (fun _ => Except.ok "")).2 Err.cookieParse (by decide)⟩

/-- Claim C9: a request with no Cookie header gets an empty cookie map without
error, the session resolves to `none`, and the request is routed
unauthenticated. -/
theorem no_cookie_header_unauthenticated (req : HttpReq) (store : Store) (salt : Nat)
    (key : List Nat) (render : Option Nat → Except Err String)
    (h : req.cookieHeader = none) :
    get_cookies req.cookieHeader = .ok []
    ∧ Session.from_cookies [] key = none
    ∧ router req store salt key render = route req none store salt key render := by
  have hck : get_cookies req.cookieHeader = .ok [] := by rw [h]; rfl
  refine ⟨hck, rfl, ?_⟩
  rw [router_eq_route _ _ _ _ _ _ hck]
  rfl

/-- Witness for C9 at a concrete request with no Cookie header. -/
theorem no_cookie_header_unauthenticated_witness :
    get_cookies (⟨HMethod.get, "/", none, .error Err.urlencodedParse⟩ : HttpReq).cookieHeader
      = .ok []
    ∧ Session.from_cookies [] [7] = none
    ∧ router ⟨HMethod.get, "/", none, .error Err.urlencodedParse⟩ [] 0 [7]
        (fun _ => Except.ok "") =
      route ⟨HMethod.get, "/", none, .error Err.urlencodedParse⟩ none [] 0 [7]
        (fun _ => Except.ok "") :=
  no_cookie_header_unauthenticated ⟨HMethod.get, "/", none, .error Err.urlencodedParse⟩
    [] 0 [7] (fun _ => Except.ok "") rfl

/-- Counterexample to C10 as stated: an unrouted method/path pair whose Cookie
header fails cookie parsing is answered with a 500 response, not a 404. -/
theorem unknown_route_bad_cookie_counterexample :
    (catcher ⟨HMethod.get, "/nope", some "garbage", .error Err.urlencodedParse⟩
        [] 0 [] (fun _ => Except.ok "")).1 =
      .ok ⟨500, none, none, errToString Err.cookieParse⟩
    ∧ (catcher ⟨HMethod.get, "/nope", some "garbage", .error Err.urlencodedParse⟩
        [] 0 [] (fun _ => Except.ok "")).1 ≠ .ok ⟨404, none, none, ""⟩ := by
  constructor
  · decide
  · decide

/-- Claim C10 (amended): every request whose Cookie header parses (or is
absent) and whose method/path pair is not one of the four handled routes gets
a 404 response with empty body and no database effect. -/
theorem unknown_route_404 (req : HttpReq) (store : Store) (salt : Nat) (key : List Nat)
    (render : Option Nat → Except Err String) (cookies : List (String × String))
    (hck : get_cookies req.cookieHeader = .ok cookies)
    (h1 : ¬(req.method = HMethod.get ∧ req.path = "/"))
    (h2 : ¬(req.method = HMethod.post ∧ req.path = "/auth/register"))
    (h3 : ¬(req.method = HMethod.post ∧ req.path = "/auth/login"))
    (h4 : ¬(req.method = HMethod.post ∧ req.path = "/auth/logout")) :
    router req store salt key render = (.ok ⟨404, none, none, ""⟩, []) := by
  rw [router_eq_route _ _ _ _ _ _ hck, route_fallback _ _ _ _ _ _ h1 h2 h3 h4]

/-- Witness for C10 at a concrete unrouted request. -/
theorem unknown_route_404_witness :
    router ⟨HMethod.get, "/nope", none, .error Err.urlencodedParse⟩ [] 0 [7]
        (fun _ => Except.ok "") = (.ok ⟨404, none, none, ""⟩, []) :=
  unknown_route_404 ⟨HMethod.get, "/nope", none, .error Err.urlencodedParse⟩ [] 0 [7]
    (fun _ => Except.ok "") [] (by decide) (by decide) (by decide) (by decide) (by decide)
